import Mathlib

/-!
Shallow embedding of `src/data.py`: a PyPI simple-index crawler.

The module defines a class `PackageCrawler` (loads or builds a package
listing), a helper `get_links` (HTTP GET plus HTML anchor extraction), and a
class `Package` (resolves the lexicographically latest artifact of a package,
downloads it into a temporary directory and parses its metadata).

Modelling conventions:
- Python exceptions are an explicit `PyErr` error type in `Except`.
- The network is an ambient function `Net` from URL to either a response
  (anchors of the parsed HTML plus raw body bytes) or a raised exception.
- The snapshot file `packages.json` is a `Snapshot` value; the temporary
  file system is a list of (directory, filename) pairs.
- Python strings compare by Unicode code point; `charListLe` models that
  comparison on `List Char` (executable in the kernel, unlike the
  well-founded definitions in core `String`).
- The external libraries (`requests`, `BeautifulSoup`, `pkginfo`) are
  parameters: the page parse result lives in the response, and the two
  metadata readers are function arguments.
-/

/-- Python string less-or-equal: lexicographic comparison by Unicode code
point over the characters, as used by `list.sort` on string keys. -/
def charListLe : List Char → List Char → Bool
  | [], _ => true
  | _ :: _, [] => false
  | a :: as, b :: bs =>
    if a.toNat < b.toNat then true
    else if b.toNat < a.toNat then false
    else charListLe as bs

/-- Python `s.endswith(suffix)`: true when `suffix` is a suffix of `s`. -/
def pyEndsWith (s suffix : String) : Bool :=
  s.data.drop (s.data.length - suffix.data.length) == suffix.data

/-- Python `s.rstrip(chars)`: removes from the right end of `s` every
character that belongs to the character SET of `chars` (not the literal
suffix `chars`). Used by `PackageCrawler._add_base_url` (line 29). -/
def pyRstrip (s : String) (chars : String) : String :=
  ⟨(s.data.reverse.dropWhile (fun c => chars.data.contains c)).reverse⟩

/-- The Python exceptions this program can raise or document. -/
inductive PyErr where
  /-- NameError / UnboundLocalError: a local variable referenced before any
  assignment ran (the variables `res` at line 91 and `dist` at line 123). -/
  | nameError (var : String)
  /-- AttributeError: attribute lookup on an object that lacks it
  (`self.logger` at line 56). -/
  | attributeError (attr : String)
  /-- KeyError: BeautifulSoup tag subscript on an absent attribute
  (`link["href"]`, lines 61 and 97). -/
  | keyError (key : String)
  /-- TypeError: comparing or joining a None where a string is required. -/
  | typeError
  /-- IndexError: `self.package_versions[-1]` on an empty list (line 106). -/
  | indexError
  /-- json.JSONDecodeError from `json.load` on malformed content (line 54). -/
  | jsonError
  /-- A propagated `requests` exception (uncaught at line 112). -/
  | networkError (msg : String)
  /-- Modelled from the spec: the documented "unsupported format" error kind
  of testable property 6. No code in `src/data.py` raises it; it exists here
  only so the absence of such a failure mode can be stated. -/
  | unsupportedFormat
deriving DecidableEq

/-- An anchor tag as produced by `BeautifulSoup(...).find_all("a")`:
`link.string` may be None, and the `href` attribute may be absent. -/
structure Anchor where
  label : Option String
  href : Option String
deriving DecidableEq

/-- A successful `requests.get` response: `anchors` stands for the anchor
tags of the parsed `res.text`, `content` for the raw `res.content` bytes. -/
structure Resp where
  anchors : List Anchor
  content : List Nat
deriving DecidableEq

/-- The ambient HTTP world: each `requests.get(url)` either returns a
response or raises an exception carrying a message. -/
def Net : Type := String → Except String Resp

/-- The list comprehension at line 97:
`[(link.string, link["href"]) for link in links]`, evaluated left to right;
the first anchor without an `href` attribute raises KeyError("href"). -/
def extractAnchorPairs : List Anchor → Except PyErr (List (Option String × String))
  | [] => .ok []
  | a :: rest =>
    match a.href with
    | none => .error (.keyError "href")
    | some h => (extractAnchorPairs rest).map (fun l => (a.label, h) :: l)

/-- Function `get_links` (lines 68 to 97). The GET at line 85 sits in a
try/except whose handler only logs (lines 87 to 89); on a raised request the
code then falls through to line 91 and evaluates `res.text` with the local
`res` never assigned, raising an unbound-name error that replaces the
original network error. On success the anchors of the parsed body are turned
into (label, href) pairs. -/
def get_links (net : Net) (url : String) : Except PyErr (List (Option String × String)) :=
  match net url with
  | .error _ => .error (.nameError "res")
  | .ok res => extractAnchorPairs res.anchors

/-- A package listing as stored in memory and in `packages.json`: pairs of
(name, url), where the name is the anchor label and may be None. -/
abbrev Listing := List (Option String × String)

/-- The state of the `packages.json` file in the working directory. -/
inductive Snapshot where
  /-- The file does not exist. -/
  | absent
  /-- The file exists but its content is not valid JSON. -/
  | invalidJson
  /-- The file exists and holds valid JSON deserializing to this listing. -/
  | valid (packages : Listing)
deriving DecidableEq

namespace PackageCrawler

/-- Method `_add_base_url` (lines 28 to 29): the f-string
`f"{self.repo_url.rstrip('/simple/')}{url}"`, i.e. the repo URL with every
trailing character from the set of `"/simple/"` stripped, concatenated with
the href. -/
def add_base_url (repo_url url : String) : String :=
  pyRstrip repo_url "/simple/" ++ url

/-- Lines 58 to 64 of `_get_packages`: the cold-start body that line 56
would be followed by, had line 56 used the module-level `logger`. Line 58
fetches the index root; `get_links` returns a list of plain TUPLES, yet the
comprehension at line 61 evaluates `link.string` (attribute access on a
tuple) for each element, so for any non-empty link list the first element
raises AttributeError("string") before any listing entry is built and
before `_add_base_url` or the `json.dump` at line 64 can run. Only an empty
link list survives the comprehension, producing an empty listing and
writing it to `packages.json`. Returns (result, resulting snapshot state,
number of HTTP GETs issued). -/
def cold_start (net : Net) (repo_url : String) : Except PyErr Listing × Snapshot × Nat :=
  match get_links net repo_url with
  | .error e => (.error e, .absent, 1)
  | .ok [] => (.ok [], .valid [], 1)
  | .ok (_ :: _) => (.error (.attributeError "string"), .absent, 1)

/-- Method `_get_packages` (lines 51 to 66). If `packages.json` exists it is
deserialized and returned with no request (lines 51 to 54); invalid JSON
propagates out of `json.load`. Otherwise line 56 runs
`self.logger.debug(...)`: the instance has no attribute `logger` (only the
module does), so an AttributeError is raised before `cold_start` (lines 58
to 64) is ever reached. Returns (result, resulting snapshot state, number of
HTTP GETs issued). -/
def get_packages (net : Net) (snap : Snapshot) (repo_url : String) :
    Except PyErr Listing × Snapshot × Nat :=
  match snap with
  | .valid packages => (.ok packages, .valid packages, 0)
  | .invalidJson => (.error .jsonError, .invalidJson, 0)
  | .absent => (.error (.attributeError "logger"), .absent, 0)

end PackageCrawler

/-- Files on disk created during metadata extraction, as (directory,
filename) pairs. -/
abbrev Fs := List (String × String)

/-- Python `with TemporaryDirectory() as tmpdir:` semantics: the body runs,
and when the block exits, normally or by exception, the directory and every
file inside it are removed. -/
def withTemporaryDirectory {μ : Type} (tmpdir : String)
    (body : Fs → Except PyErr μ × Fs) (fs : Fs) : Except PyErr μ × Fs :=
  let r := body fs
  (r.1, r.2.filter (fun p => p.1 ≠ tmpdir))

/-- The sort key comparison of line 105, `key=lambda x: x[0]`, on pairs
whose first component is a present string. -/
def versionLe (p q : Option String × String) : Prop :=
  charListLe (p.1.getD "").data (q.1.getD "").data = true

instance : DecidableRel versionLe := fun p q =>
  inferInstanceAs (Decidable (charListLe (p.1.getD "").data (q.1.getD "").data = true))

/-- Line 105, `self.package_versions.sort(key=lambda x: x[0])`. Python
`list.sort` is a stable sort (any two stable sorts under the same key agree,
so an insertion sort models it exactly); comparing a None key against
anything raises TypeError, and CPython compares keys only when the list has
at least two elements. -/
def sortVersions (l : List (Option String × String)) :
    Except PyErr (List (Option String × String)) :=
  if l.length ≤ 1 then .ok l
  else if l.all (fun p => p.1.isSome) then .ok (l.insertionSort versionLe)
  else .error .typeError

namespace Package

/-- Lines 104 to 106 after the fetch: sort the fetched version links by
filename and take element [-1]; on an empty list the subscript raises
IndexError. -/
def latest_version_of (links : List (Option String × String)) :
    Except PyErr (Option String × String) :=
  match sortVersions links with
  | .error e => .error e
  | .ok sorted =>
    match sorted.getLast? with
    | none => .error .indexError
    | some v => .ok v

/-- Method `extract_metadata` (lines 109 to 125). Inside a temporary
directory: GET the artifact (line 112, unguarded, so a raised request
propagates), then build `os.path.join(tmpdir, filename)` at line 114 —
which raises TypeError when the filename is None, only AFTER the GET ran —
write the body to that path, and dispatch on the path suffix: `.tar.gz`
chooses the sdist reader, `.whl` the wheel reader, and any other suffix
leaves the local `dist` unassigned so that line 123 raises an unbound-name
error. The readers `sdistRead` and `wheelRead` stand for the external
`pkginfo.SDist` and `pkginfo.Wheel` constructors applied to the downloaded
bytes. The filename is an Option because it arrives as the label component
of the chosen version link. -/
def extract_metadata {μ : Type} (net : Net)
    (sdistRead wheelRead : List Nat → Except PyErr μ)
    (tmpdir : String) (filename : Option String) (url : String) (fs : Fs) :
    Except PyErr μ × Fs :=
  withTemporaryDirectory tmpdir
    (fun fs0 =>
      match net url with
      | .error e => (.error (.networkError e), fs0)
      | .ok response =>
        match filename with
        | none => (.error .typeError, fs0)
        | some fn =>
          let pkgpath := tmpdir ++ "/" ++ fn
          let fs1 : Fs := fs0 ++ [(tmpdir, fn)]
          if pyEndsWith pkgpath ".tar.gz" then (sdistRead response.content, fs1)
          else if pyEndsWith pkgpath ".whl" then (wheelRead response.content, fs1)
          else (.error (.nameError "dist"), fs1))
    fs

/-- The attributes a fully constructed `Package` instance holds. -/
structure PackageState (μ : Type) where
  name : String
  repo_url : String
  package_versions : List (Option String × String)
  latest_version : Option String × String
  metadata : μ
deriving DecidableEq

/-- Constructor `Package.__init__` (lines 101 to 107): fetch the version
links of `repo_url + name`, sort them in place, take the last as
`latest_version`, and call `extract_metadata(*self.latest_version)`, i.e.
pass the label (possibly None) as the filename and the href as the URL. -/
def init {μ : Type} (net : Net) (sdistRead wheelRead : List Nat → Except PyErr μ)
    (tmpdir name repo_url : String) (fs : Fs) :
    Except PyErr (PackageState μ) × Fs :=
  match get_links net (repo_url ++ name) with
  | .error e => (.error e, fs)
  | .ok links =>
    match sortVersions links with
    | .error e => (.error e, fs)
    | .ok package_versions =>
      match package_versions.getLast? with
      | none => (.error .indexError, fs)
      | some latest =>
        let r := extract_metadata net sdistRead wheelRead tmpdir latest.1 latest.2 fs
        match r.1 with
        | .error e => (.error e, r.2)
        | .ok m => (.ok ⟨name, repo_url, package_versions, latest, m⟩, r.2)

end Package

/-! Helper lemmas about the Python string comparison and about sortedness. -/

theorem charListLe_refl : ∀ as, charListLe as as = true := by
  intro as
  induction as with
  | nil => rfl
  | cons a t ih => simp [charListLe, ih]

theorem charListLe_cons_iff {a b : Char} {as bs : List Char} :
    charListLe (a :: as) (b :: bs) = true ↔
      a.toNat < b.toNat ∨ (a.toNat = b.toNat ∧ charListLe as bs = true) := by
  simp only [charListLe]
  split_ifs with h1 h2
  · simp [h1]
  · simp [h1, h2]; omega
  · have : a.toNat = b.toNat := by omega
    simp [h1, h2, this]

theorem charListLe_total : ∀ as bs, charListLe as bs = true ∨ charListLe bs as = true := by
  intro as
  induction as with
  | nil => intro bs; left; rfl
  | cons a t ih =>
    intro bs
    cases bs with
    | nil => right; rfl
    | cons b u =>
      rcases Nat.lt_trichotomy a.toNat b.toNat with h | h | h
      · left; exact charListLe_cons_iff.mpr (Or.inl h)
      · rcases ih u with h2 | h2
        · left; exact charListLe_cons_iff.mpr (Or.inr ⟨h, h2⟩)
        · right; exact charListLe_cons_iff.mpr (Or.inr ⟨h.symm, h2⟩)
      · right; exact charListLe_cons_iff.mpr (Or.inl h)

theorem charListLe_trans :
    ∀ as bs cs, charListLe as bs = true → charListLe bs cs = true →
      charListLe as cs = true := by
  intro as
  induction as with
  | nil => intro bs cs _ _; rfl
  | cons a t ih =>
    intro bs cs hab hbc
    cases bs with
    | nil => exact absurd hab (by simp [charListLe])
    | cons b u =>
      cases cs with
      | nil => exact absurd hbc (by simp [charListLe])
      | cons c v =>
        rcases charListLe_cons_iff.mp hab with h1 | ⟨h1, h1r⟩ <;>
          rcases charListLe_cons_iff.mp hbc with h2 | ⟨h2, h2r⟩
        · exact charListLe_cons_iff.mpr (Or.inl (Nat.lt_trans h1 h2))
        · exact charListLe_cons_iff.mpr (Or.inl (h2 ▸ h1))
        · exact charListLe_cons_iff.mpr (Or.inl (h1 ▸ h2))
        · exact charListLe_cons_iff.mpr (Or.inr ⟨h1.trans h2, ih u v h1r h2r⟩)

instance : IsTotal (Option String × String) versionLe :=
  ⟨fun p q => charListLe_total (p.1.getD "").data (q.1.getD "").data⟩

instance : IsTrans (Option String × String) versionLe :=
  ⟨fun _ _ _ hab hbc => charListLe_trans _ _ _ hab hbc⟩

theorem versionLe_refl (p : Option String × String) : versionLe p p :=
  charListLe_refl _

/-- In a nonempty list, getLast? yields a member. -/
theorem mem_of_getLast?_eq_some {α : Type} :
    ∀ {l : List α} {m : α}, l.getLast? = some m → m ∈ l := by
  intro l
  induction l with
  | nil => intro m h; cases h
  | cons a t ih =>
    intro m h
    cases t with
    | nil =>
      simp [List.getLast?] at h
      simp [h]
    | cons b u =>
      rw [List.getLast?_cons_cons] at h
      exact List.mem_cons_of_mem a (ih h)

/-- In a sorted list, every member is below the last element. -/
theorem rel_getLast?_of_sorted {α : Type} {r : α → α → Prop} :
    ∀ {l : List α}, l.Sorted r → ∀ {m : α}, l.getLast? = some m →
      ∀ {x : α}, x ∈ l → x = m ∨ r x m := by
  intro l
  induction l with
  | nil => intro _ m h; cases h
  | cons a t ih =>
    intro hs m hm x hx
    cases t with
    | nil =>
      simp [List.getLast?] at hm
      rcases List.mem_singleton.mp hx with rfl
      exact Or.inl hm
    | cons b u =>
      rw [List.getLast?_cons_cons] at hm
      have hs2 := (List.sorted_cons.mp hs).2
      have ha := (List.sorted_cons.mp hs).1
      rcases List.mem_cons.mp hx with rfl | hx2
      · exact Or.inr (ha m (mem_of_getLast?_eq_some hm))
      · exact ih hs2 hm hx2

/-- Nonempty lists have a getLast?. -/
theorem getLast?_isSome_of_ne_nil {α : Type} :
    ∀ {l : List α}, l ≠ [] → ∃ m, l.getLast? = some m := by
  intro l
  induction l with
  | nil => intro h; exact absurd rfl h
  | cons a t ih =>
    intro _
    cases t with
    | nil => exact ⟨a, rfl⟩
    | cons b u =>
      rcases ih (by simp) with ⟨m, hm⟩
      exact ⟨m, by rw [List.getLast?_cons_cons]; exact hm⟩

/-- sortVersions succeeds on lists all of whose keys are present strings,
and returns a sorted permutation of its input. -/
theorem sortVersions_ok {l : List (Option String × String)}
    (hlab : ∀ p ∈ l, p.1.isSome = true) :
    ∃ s, sortVersions l = .ok s ∧ s.Perm l ∧ s.Sorted versionLe := by
  unfold sortVersions
  split_ifs with h1 h2
  · refine ⟨l, rfl, List.Perm.refl l, ?_⟩
    match l, h1 with
    | [], _ => exact List.sorted_nil
    | [x], _ => exact List.sorted_singleton x
  · exact ⟨l.insertionSort versionLe, rfl, l.perm_insertionSort versionLe,
      l.sorted_insertionSort versionLe⟩
  · exact absurd (List.all_eq_true.mpr (fun p hp => hlab p hp)) h2

/-! Claim theorems. -/

/-- C1: For every non-empty list of version links fetched for a package
(with all filename labels present), Package construction selects as
latest_version the maximum of the links under default lexicographic string
comparison of the first tuple element, the filename; in particular on
["pkg-1.9.tar.gz", "pkg-1.10.tar.gz"] the selected latest is
"pkg-1.9.tar.gz", not the semantically newer 1.10. -/
theorem latest_version_is_lex_max {μ : Type} (net : Net)
    (sdistRead wheelRead : List Nat → Except PyErr μ) (tmpdir name repo_url : String)
    (fs : Fs) (links : List (Option String × String))
    (hfetch : get_links net (repo_url ++ name) = .ok links)
    (hne : links ≠ []) (hlab : ∀ p ∈ links, p.1.isSome = true) :
    ∃ m, Package.latest_version_of links = .ok m ∧ m ∈ links ∧
      (∀ p ∈ links, versionLe p m) ∧
      (∀ (st : Package.PackageState μ) (fs2 : Fs),
        Package.init net sdistRead wheelRead tmpdir name repo_url fs = (.ok st, fs2) →
        st.latest_version = m) := by
  rcases sortVersions_ok hlab with ⟨s, hs, hperm, hsort⟩
  have hsne : s ≠ [] := by
    intro h
    subst h
    exact hne (List.perm_nil.mp hperm.symm)
  rcases getLast?_isSome_of_ne_nil hsne with ⟨m, hm⟩
  have hmem : m ∈ links := hperm.mem_iff.mp (mem_of_getLast?_eq_some hm)
  refine ⟨m, ?_, hmem, ?_, ?_⟩
  · unfold Package.latest_version_of
    simp only [hs, hm]
  · intro p hp
    rcases rel_getLast?_of_sorted hsort hm (hperm.mem_iff.mpr hp) with rfl | h
    · exact versionLe_refl p
    · exact h
  · intro st fs2 hinit
    unfold Package.init at hinit
    simp only [hfetch, hs, hm] at hinit
    cases hr : (Package.extract_metadata net sdistRead wheelRead tmpdir m.1 m.2 fs).1 with
    | error e => simp only [hr] at hinit; simp at hinit
    | ok mm =>
      simp only [hr] at hinit
      have := congrArg Prod.fst hinit
      simp only [Prod.fst] at this
      rw [← (Except.ok.inj this)]

/-- C4: Whenever the GET inside get_links raises, the network error is
caught and logged but not propagated: the call instead fails with the
secondary unbound-name error on the response variable res. -/
theorem get_links_network_error_shadowed (net : Net) (url msg : String)
    (h : net url = .error msg) :
    get_links net url = .error (.nameError "res") ∧
      get_links net url ≠ .error (.networkError msg) := by
  unfold get_links
  rw [h]
  exact ⟨rfl, by simp⟩

def cErrNet : Net := fun _ => .error "connection refused"

theorem get_links_network_error_shadowed_witness :
    get_links cErrNet "https://pypi.org/simple/" = .error (.nameError "res") ∧
      get_links cErrNet "https://pypi.org/simple/"
        ≠ .error (.networkError "connection refused") :=
  get_links_network_error_shadowed cErrNet "https://pypi.org/simple/" "connection refused" rfl

/-- C5: With a valid packages.json snapshot, constructing the crawler twice
yields the deserialized listing both times, leaves the snapshot unchanged,
and issues zero HTTP requests on either construction. -/
theorem get_packages_idempotent_no_requests (net : Net) (repo_url : String) (l : Listing) :
    PackageCrawler.get_packages net (.valid l) repo_url = (.ok l, .valid l, 0) ∧
      PackageCrawler.get_packages net
          (PackageCrawler.get_packages net (.valid l) repo_url).2.1 repo_url
        = (.ok l, .valid l, 0) :=
  ⟨rfl, rfl⟩

/-- C6: A package subpage with zero version links makes Package construction
fail with an uncaught IndexError from the [-1] subscript, not return a
silent default. -/
theorem init_empty_versions_index_error {μ : Type} (net : Net)
    (sdistRead wheelRead : List Nat → Except PyErr μ)
    (tmpdir name repo_url : String) (fs : Fs) (content : List Nat)
    (h : net (repo_url ++ name) = .ok ⟨[], content⟩) :
    Package.init net sdistRead wheelRead tmpdir name repo_url fs
      = (.error .indexError, fs) := by
  unfold Package.init get_links
  rw [h]
  rfl

def c6net : Net := fun _ => .ok ⟨[], []⟩

theorem init_empty_versions_index_error_witness :
    Package.init c6net (fun _ => (.ok () : Except PyErr Unit)) (fun _ => .ok ())
        "/tmp/x" "pkg" "https://pypi.org/simple/" []
      = (.error .indexError, []) :=
  init_empty_versions_index_error c6net _ _ "/tmp/x" "pkg" "https://pypi.org/simple/" [] [] rfl

/-- C9: When packages.json exists but is not valid JSON, crawler
construction fails with the uncaught parse error and attempts no network
fallback: zero HTTP requests, snapshot left as is. -/
theorem get_packages_invalid_json_uncaught (net : Net) (repo_url : String) :
    PackageCrawler.get_packages net .invalidJson repo_url
      = (.error .jsonError, .invalidJson, 0) :=
  rfl

theorem extractAnchorPairs_missing_href :
    ∀ {as : List Anchor}, (∃ a ∈ as, a.href = none) →
      extractAnchorPairs as = .error (.keyError "href") := by
  intro as
  induction as with
  | nil => rintro ⟨a, ha, _⟩; cases ha
  | cons a t ih =>
    rintro ⟨b, hb, hbn⟩
    rcases List.mem_cons.mp hb with rfl | hbt
    · simp [extractAnchorPairs, hbn]
    · cases ha : a.href with
      | none => simp [extractAnchorPairs, ha]
      | some h => simp [extractAnchorPairs, ha, ih ⟨b, hbt, hbn⟩, Except.map]

theorem extractAnchorPairs_ok_href_present :
    ∀ {as : List Anchor} {l}, extractAnchorPairs as = .ok l →
      ∀ a ∈ as, a.href.isSome = true := by
  intro as
  induction as with
  | nil => intro l _ a ha; cases ha
  | cons a t ih =>
    intro l hok b hb
    cases ha : a.href with
    | none => simp [extractAnchorPairs, ha] at hok
    | some h =>
      rcases List.mem_cons.mp hb with rfl | hbt
      · simp [ha]
      · simp only [extractAnchorPairs, ha] at hok
        cases ht : extractAnchorPairs t with
        | error e => rw [ht] at hok; simp [Except.map] at hok
        | ok l2 => exact ih ht b hbt

/-- C10: On a successfully fetched and parsed page, an anchor without an
href attribute makes get_links raise an uncaught KeyError; consequently a
successful return implies every anchor carried an href. -/
theorem get_links_href_always_present (net : Net) (url : String) (resp : Resp)
    (h : net url = .ok resp) :
    ((∃ a ∈ resp.anchors, a.href = none) →
        get_links net url = .error (.keyError "href")) ∧
      (∀ l, get_links net url = .ok l → ∀ a ∈ resp.anchors, a.href.isSome = true) := by
  unfold get_links
  rw [h]
  exact ⟨fun hex => extractAnchorPairs_missing_href hex,
    fun l hok => extractAnchorPairs_ok_href_present hok⟩

def c10net : Net := fun _ => .ok ⟨[⟨some "pkg-1.0.tar.gz", none⟩], []⟩

theorem get_links_href_always_present_witness :
    get_links c10net "https://pypi.org/simple/pkg" = .error (.keyError "href") :=
  (get_links_href_always_present c10net "https://pypi.org/simple/pkg"
      ⟨[⟨some "pkg-1.0.tar.gz", none⟩], []⟩ rfl).1
    ⟨⟨some "pkg-1.0.tar.gz", none⟩, List.mem_singleton.mpr rfl, rfl⟩

def c1net : Net := fun u =>
  if u = "https://pypi.org/simple/pkg" then
    .ok ⟨[⟨some "pkg-1.9.tar.gz", some "u1"⟩, ⟨some "pkg-1.10.tar.gz", some "u2"⟩], []⟩
  else .error "no route"

theorem latest_version_is_lex_max_witness :
    (∃ m, Package.latest_version_of
          [(some "pkg-1.9.tar.gz", "u1"), (some "pkg-1.10.tar.gz", "u2")] = .ok m ∧
        m ∈ [((some "pkg-1.9.tar.gz" : Option String), ("u1" : String)),
          (some "pkg-1.10.tar.gz", "u2")] ∧
        (∀ p ∈ [((some "pkg-1.9.tar.gz" : Option String), ("u1" : String)),
          (some "pkg-1.10.tar.gz", "u2")], versionLe p m) ∧
        (∀ (st : Package.PackageState Unit) (fs2 : Fs),
          Package.init c1net (fun _ => .ok ()) (fun _ => .ok ())
              "/tmp/x" "pkg" "https://pypi.org/simple/" [] = (.ok st, fs2) →
          st.latest_version = m)) ∧
      Package.latest_version_of [(some "pkg-1.9.tar.gz", "u1"), (some "pkg-1.10.tar.gz", "u2")]
        = .ok (some "pkg-1.9.tar.gz", "u1") :=
  ⟨latest_version_is_lex_max c1net (fun _ => .ok ()) (fun _ => .ok ()) "/tmp/x" "pkg"
      "https://pypi.org/simple/" []
      [(some "pkg-1.9.tar.gz", "u1"), (some "pkg-1.10.tar.gz", "u2")]
      rfl (by decide) (by decide),
    rfl⟩

def c2net : Net := fun u =>
  if u = "https://pypi.org/simple/" then
    .ok ⟨[⟨some "pkg-a", some "/simple/pkg-a/"⟩, ⟨some "pkg-b", some "/simple/pkg-b/"⟩], []⟩
  else .error "no route"

/-- C2: With no snapshot and an index root answering the two links pkg-a and
pkg-b, crawler construction does NOT succeed: line 56 reads the nonexistent
instance attribute self.logger and raises AttributeError before any request
is made, so no listing is built and no snapshot is written. Even the lines
below line 56 (modelled as cold_start) could not have produced the claimed
listing: the comprehension at line 61 evaluates link.string on the plain
tuples get_links returns and raises AttributeError("string") on the first
of the two links, again building no listing and writing no snapshot. -/
theorem get_packages_cold_start_attribute_error :
    PackageCrawler.get_packages c2net .absent "https://pypi.org/simple/"
        = (.error (.attributeError "logger"), .absent, 0) ∧
      PackageCrawler.cold_start c2net "https://pypi.org/simple/"
        = (.error (.attributeError "string"), .absent, 1) :=
  ⟨rfl, rfl⟩

def zipNet : Net := fun u =>
  if u = "https://pypi.org/simple/pkg" then
    .ok ⟨[⟨some "pkg-1.0.zip", some "https://files/pkg-1.0.zip"⟩], []⟩
  else if u = "https://files/pkg-1.0.zip" then .ok ⟨[], [1, 2, 3]⟩
  else .error "no route"

/-- C3 counterexample: with the latest-version filename pkg-1.0.zip the
construction fails with the unbound-local NameError on dist, which is not
the documented unsupported-format error kind. -/
theorem zip_suffix_not_unsupported_format :
    Package.init zipNet (fun _ => (.ok () : Except PyErr Unit)) (fun _ => .ok ())
        "/tmp/x" "pkg" "https://pypi.org/simple/" []
        = (.error (.nameError "dist"), []) ∧
      PyErr.nameError "dist" ≠ PyErr.unsupportedFormat :=
  ⟨rfl, by decide⟩

/-- C3 amended: whenever the fetched version links make Package
construction select a latest version whose filename yields a downloaded
path ending neither in .tar.gz nor in .whl, then once the artifact GET
returns, construction fails with the undefined-reference error on the
never-assigned dispatch variable dist (as does extract_metadata itself),
not with a documented unsupported-format error kind. -/
theorem unknown_suffix_raises_unbound_dist {μ : Type} (net : Net)
    (sdistRead wheelRead : List Nat → Except PyErr μ)
    (tmpdir name repo_url filename url : String) (fs : Fs)
    (links : List (Option String × String)) (resp : Resp)
    (hfetch : get_links net (repo_url ++ name) = .ok links)
    (hlatest : Package.latest_version_of links = .ok (some filename, url))
    (hget : net url = .ok resp)
    (h1 : pyEndsWith (tmpdir ++ "/" ++ filename) ".tar.gz" = false)
    (h2 : pyEndsWith (tmpdir ++ "/" ++ filename) ".whl" = false) :
    (Package.init net sdistRead wheelRead tmpdir name repo_url fs).1
        = .error (.nameError "dist") ∧
      (Package.extract_metadata net sdistRead wheelRead tmpdir (some filename) url fs).1
        = .error (.nameError "dist") ∧
      (Package.init net sdistRead wheelRead tmpdir name repo_url fs).1
        ≠ .error PyErr.unsupportedFormat := by
  have hext : (Package.extract_metadata net sdistRead wheelRead tmpdir
      (some filename) url fs).1 = .error (.nameError "dist") := by
    unfold Package.extract_metadata withTemporaryDirectory
    simp [hget, h1, h2]
  have hinit : (Package.init net sdistRead wheelRead tmpdir name repo_url fs).1
      = .error (.nameError "dist") := by
    unfold Package.latest_version_of at hlatest
    cases hsv : sortVersions links with
    | error e => rw [hsv] at hlatest; simp at hlatest
    | ok s =>
      simp only [hsv] at hlatest
      cases hlast : s.getLast? with
      | none => rw [hlast] at hlatest; simp at hlatest
      | some v =>
        simp only [hlast] at hlatest
        have hv := Except.ok.inj hlatest
        unfold Package.init
        simp only [hfetch, hsv, hlast, hv]
        simp [hext]
  exact ⟨hinit, hext, by rw [hinit]; simp⟩

theorem unknown_suffix_raises_unbound_dist_witness :
    (Package.init zipNet (fun _ => (.ok () : Except PyErr Unit)) (fun _ => .ok ())
          "/tmp/x" "pkg" "https://pypi.org/simple/" []).1
        = .error (.nameError "dist") ∧
      (Package.extract_metadata zipNet (fun _ => (.ok () : Except PyErr Unit)) (fun _ => .ok ())
          "/tmp/x" (some "pkg-1.0.zip") "https://files/pkg-1.0.zip" []).1
        = .error (.nameError "dist") ∧
      (Package.init zipNet (fun _ => (.ok () : Except PyErr Unit)) (fun _ => .ok ())
          "/tmp/x" "pkg" "https://pypi.org/simple/" []).1
        ≠ .error PyErr.unsupportedFormat :=
  unknown_suffix_raises_unbound_dist zipNet _ _ "/tmp/x" "pkg" "https://pypi.org/simple/"
    "pkg-1.0.zip" "https://files/pkg-1.0.zip" []
    [(some "pkg-1.0.zip", "https://files/pkg-1.0.zip")] ⟨[], [1, 2, 3]⟩
    rfl rfl rfl (by decide) (by decide)

/-- C7: Whatever the network, the readers, and their outcomes (success,
network exception, parse failure, or the unbound-dist error), every file
extract_metadata placed under its temporary directory is gone when the call
exits: the file system is exactly what it was before the call, provided no
preexisting file lived under the freshly created temporary directory. -/
theorem extract_metadata_cleanup {μ : Type} (net : Net)
    (sdistRead wheelRead : List Nat → Except PyErr μ)
    (tmpdir : String) (filename : Option String) (url : String) (fs : Fs)
    (hfs : ∀ p ∈ fs, p.1 ≠ tmpdir) :
    (Package.extract_metadata net sdistRead wheelRead tmpdir filename url fs).2 = fs := by
  have hkeep : fs.filter (fun p => p.1 ≠ tmpdir) = fs :=
    List.filter_eq_self.mpr (fun p hp => by simpa using hfs p hp)
  unfold Package.extract_metadata withTemporaryDirectory
  cases hnet : net url with
  | error e => simpa using hkeep
  | ok resp =>
    cases filename with
    | none => simpa [hnet] using hkeep
    | some fn =>
      simp only [hnet]
      split_ifs <;> simpa [List.filter_append] using hkeep

theorem extract_metadata_cleanup_witness :
    (Package.extract_metadata zipNet (fun _ => (.ok () : Except PyErr Unit)) (fun _ => .ok ())
        "/tmp/x" (some "pkg-1.0.zip") "https://files/pkg-1.0.zip" [("/keep", "a.txt")]).2
      = [("/keep", "a.txt")] :=
  extract_metadata_cleanup zipNet _ _ "/tmp/x" (some "pkg-1.0.zip") "https://files/pkg-1.0.zip"
    [("/keep", "a.txt")] (by decide)

/-- Modelled from the spec: section 4.2 words the absolutization rule as the
index root with a fixed fixed-length suffix (the eight characters of
"/simple/") trimmed from its right side. The code instead uses the
character-set strip pyRstrip; on the default index root the two coincide. -/
def specTrimFixedSuffix (s : String) : String :=
  ⟨s.data.take (s.data.length - "/simple/".data.length)⟩

def c8net : Net := fun u =>
  if u = "https://pypi.org/simple/" then
    .ok ⟨[⟨some "pkg-a", some "/simple/pkg-a/"⟩, ⟨some "pkg-b", some "/simple/pkg-b/"⟩], []⟩
  else .error "no route"

/-- C8 (code bug): the helper _add_base_url does compute, for the default
index root, exactly the URL the claim describes — the root with the fixed
eight-character suffix "/simple/" trimmed from its right (on this root the
character-set rstrip coincides with the fixed-length trim), concatenated
with the href; on href "/simple/pkg-a/" it yields
"https://pypi.org/simple/pkg-a/". But no such URL is ever STORED in a
listing during cold-start: construction raises AttributeError("logger") at
line 56 before any request, and the comprehension at line 61 would raise
AttributeError("string") on the plain tuples before building its first
entry anyway, so the listing the claim speaks of never comes into being. -/
theorem add_base_url_trims_fixed_suffix :
    (∀ href, PackageCrawler.add_base_url "https://pypi.org/simple/" href
        = specTrimFixedSuffix "https://pypi.org/simple/" ++ href) ∧
      PackageCrawler.add_base_url "https://pypi.org/simple/" "/simple/pkg-a/"
        = "https://pypi.org/simple/pkg-a/" ∧
      PackageCrawler.get_packages c8net .absent "https://pypi.org/simple/"
        = (.error (.attributeError "logger"), .absent, 0) ∧
      PackageCrawler.cold_start c8net "https://pypi.org/simple/"
        = (.error (.attributeError "string"), .absent, 1) := by
  have key : pyRstrip "https://pypi.org/simple/" "/simple/"
      = specTrimFixedSuffix "https://pypi.org/simple/" := by decide
  refine ⟨fun href => ?_, by decide, rfl, rfl⟩
  unfold PackageCrawler.add_base_url
  rw [key]
